import Mathlib

/-!
Verification of the clause-analysis pipeline (`services/clause_extraction.py`,
`services/risk_scoring.py`).

Shallow embedding of the contract-analysis core.  Text is modelled as
`List Char`; Python `float` arithmetic on the small decimal constants used by
the scorer is modelled exactly over `ℚ` (every constant involved is a decimal
fraction, and the sums and comparisons performed by the code on them are exact
in binary64 for the ranges that occur, so `ℚ` and `float` agree here).  The
statistical collaborators (the spaCy sentence splitter, the transformer clause
classifier and the transformer risk analyzer) are external models and enter
the embedding as explicit function parameters.  Python exceptions are modelled
with `Except`.

The file is organised as definitions first, then theorems.  Theorems named
`cN_...` settle the correspondingly numbered claims.
-/

/-! ## Basic text utilities -/

/-- ASCII whitespace: the characters matched by Python `\s` (and stripped by
`str.strip()`) for the ASCII texts handled here. -/
def isWS (c : Char) : Bool :=
  c = ' ' || c = '\t' || c = '\n' || c = '\r' || c = '\x0b' || c = '\x0c'

/-- Python `str.strip()`: drop whitespace from both ends. -/
def stripL (l : List Char) : List Char :=
  ((l.dropWhile isWS).reverse.dropWhile isWS).reverse

/-- Python `str.lower()` (ASCII). -/
def lowerL (l : List Char) : List Char := l.map Char.toLower

/-- Test whether the first list is an initial run of the second. -/
def leadsWith : List Char → List Char → Bool
  | [], _ => true
  | _ :: _, [] => false
  | a :: as, b :: bs => a == b && leadsWith as bs

/-- Substring test, Python `needle in hay`. -/
def isSub (needle : List Char) : List Char → Bool
  | [] => needle.isEmpty
  | c :: t => leadsWith needle (c :: t) || isSub needle t

/-- Word count of Python `len(text.split())`: the number of maximal
whitespace-free runs. -/
def wordCount (l : List Char) : Nat :=
  (l.foldl
    (fun st c =>
      if isWS c then (false, st.2)
      else if st.1 then (true, st.2) else (true, st.2 + 1))
    ((false : Bool), (0 : Nat))).2

/-! ## Decimal numerals (Python `str(n)` for a non-negative int) -/

/-- Decimal digit to its character. -/
def digitChar : Nat → Char
  | 0 => '0' | 1 => '1' | 2 => '2' | 3 => '3' | 4 => '4'
  | 5 => '5' | 6 => '6' | 7 => '7' | 8 => '8' | 9 => '9'
  | _ => '*'

/-- Partial inverse of `digitChar` (non-digits map to `10`). -/
def digitVal : Char → Nat
  | '0' => 0 | '1' => 1 | '2' => 2 | '3' => 3 | '4' => 4
  | '5' => 5 | '6' => 6 | '7' => 7 | '8' => 8 | '9' => 9
  | _ => 10

/-- Little-endian decimal digits of `n`, with explicit fuel (structural). -/
def natDigitsAux : Nat → Nat → List Nat
  | 0, _ => []
  | fuel + 1, n => if n = 0 then [] else n % 10 :: natDigitsAux fuel (n / 10)

/-- Little-endian decimal digits of `n`. -/
def natDigits (n : Nat) : List Nat := natDigitsAux n n

/-- Value of a little-endian digit list. -/
def natValDigits (l : List Nat) : Nat := l.foldr (fun d acc => d + 10 * acc) 0

/-- Decimal representation of `n`, equal to Python `str(n)`. -/
def natRepr (n : Nat) : List Char :=
  if n = 0 then ['0'] else ((natDigits n).map digitChar).reverse

/-- Numeric value of a character list (junk characters count as digit `10`); a
left inverse of `natRepr`, used to bound the reference-graph walk. -/
def natVal (s : List Char) : Nat := natValDigits ((s.reverse).map digitVal)

/-! ## Clause data model (`models/clause.py`) -/

/-- Model of the pydantic `Clause`: id, type, text, precision_score,
risk_score, references, party.  Scores are modelled over `ℚ`. -/
structure ClauseL where
  id : Nat
  type : String
  text : List Char
  precision_score : ℚ
  risk_score : ℚ
  references : List (List Char)
  party : String
deriving Repr, DecidableEq

/-! ## Reference resolution (`ClauseExtractionService.build_clause_graph`) -/

/-- Resolution rule `next(c for c in clauses if str(c.id + 1) == ref)`: the
first clause id (in clause-list order) whose successor prints as the token. -/
def resolveRef (ids : List Nat) (r : List Char) : Option Nat :=
  ids.find? (fun j => natRepr (j + 1) == r)

/-- One clause's reference walk.  The loop
`for ref in clause.references: ... clause.references.append(...)` in
`build_clause_graph` iterates over the list while appending to it, so appended
ids are themselves processed after the original entries: a FIFO walk over the
queue `q`.  `chaseF` returns the appended entries in append order, with
explicit structural fuel; a resolved token `str(i+1)` enqueues the numerically
smaller token `str(i)` and the token `"0"` never resolves, so the fuel used in
`chase` below is sufficient — the theorems `chase_nil`, `chase_cons_some` and
`chase_cons_none` prove that `chase` satisfies the loop equations exactly. -/
def chaseF : Nat → List Nat → List (List Char) → List (List Char)
  | 0, _, _ => []
  | _ + 1, _, [] => []
  | fuel + 1, ids, r :: t =>
    match resolveRef ids r with
    | some i => natRepr i :: chaseF fuel ids (t ++ [natRepr i])
    | none => chaseF fuel ids t

/-- Entries appended to one clause's `references` by `build_clause_graph`. -/
def chase (ids : List Nat) (q : List (List Char)) : List (List Char) :=
  chaseF ((q.map natVal).sum + q.length) ids q

/-- State of one clause's `references` after `build_clause_graph` has
processed it: the original entries followed by every appended resolution
(no entry is ever removed). -/
def newRefs (ids : List Nat) (refs : List (List Char)) : List (List Char) :=
  refs ++ chase ids refs

/-- Model of `build_clause_graph`: resolution consults only clause ids (which
never change), so mutating each clause in turn is the same as mapping
`newRefs` over the clause list with the fixed id index. -/
def buildClauseGraph (cs : List ClauseL) : List ClauseL :=
  cs.map (fun c => { c with references := newRefs (cs.map (·.id)) c.references })

/-! ## Segmentation (`ClauseExtractionService.segment_text`) -/

/-- Consume one `\s` character. -/
def wsOne : List Char → Option (List Char)
  | c :: r => if isWS c then some r else none
  | [] => none

/-- Match the clause-delimiter regex `\n(?:\d+\.|[A-Z]\.|[a-z]\))\s` at the
head of the list, returning the remainder after the match.  The three
alternatives have disjoint leading character classes, so alternative order is
immaterial. -/
def delimMatch : List Char → Option (List Char)
  | '\n' :: rest =>
    match rest with
    | c :: t =>
      if c.isDigit then
        match (c :: t).dropWhile Char.isDigit with
        | '.' :: r2 => wsOne r2
        | _ => none
      else if c.isUpper then
        match t with
        | '.' :: r2 => wsOne r2
        | _ => none
      else if c.isLower then
        match t with
        | ')' :: r2 => wsOne r2
        | _ => none
      else none
    | [] => none
  | _ => none

/-- Model of `re.split(clause_delimiters, text)`: the pieces between
non-overlapping leftmost matches.  Fuel is the text length; every step
consumes at least one character, and when fuel runs out the remainder is
empty. -/
def reSplitAux : Nat → List Char → List Char → List (List Char)
  | 0, acc, rest => [acc.reverse ++ rest]
  | _ + 1, acc, [] => [acc.reverse]
  | fuel + 1, acc, c :: t =>
    match delimMatch (c :: t) with
    | some rest2 => acc.reverse :: reSplitAux fuel [] rest2
    | none => reSplitAux fuel (c :: acc) t

def reSplit (text : List Char) : List (List Char) := reSplitAux text.length [] text

/-- Model of `segment_text`: regex split, strip, discard empties, then refine
each segment with the sentence splitter `sp` (the spaCy `doc.sents`
collaborator), stripping each sentence.  Note the refined sentences are
appended with no further emptiness filter. -/
def segmentText (sp : List Char → List (List Char)) (text : List Char) :
    List (List Char) :=
  let segments := ((reSplit text).map stripL).filter (fun s => !s.isEmpty)
  (segments.map (fun seg => (sp seg).map stripL)).flatten

/-! ## Classification (`ClauseExtractionService.determine_clause_type`) -/

/-- Match of the regex `^(?:\d+\.|[A-Z]\.|[a-z]\))` used by
`is_clause_header`. -/
def headerMarker : List Char → Bool
  | [] => false
  | c :: t =>
    if c.isDigit then
      match t.dropWhile Char.isDigit with
      | '.' :: _ => true
      | _ => false
    else if c.isUpper then
      match t with
      | '.' :: _ => true
      | _ => false
    else if c.isLower then
      match t with
      | ')' :: _ => true
      | _ => false
    else false

/-- Model of `is_clause_header`: structural-marker regex at the start, or at
most five words and entirely upper-case. -/
def isClauseHeader (text : List Char) : Bool :=
  headerMarker text || (wordCount text ≤ 5 && text.map Char.toUpper == text)

/-- Model of `rule_based_clause_type`: the deterministic keyword fallback,
first match wins, on the lower-cased text. -/
def ruleBasedClauseType (text : List Char) : String :=
  let t := lowerL text
  if isSub "shall".toList t then "obligation"
  else if isSub "may".toList t then "right"
  else if isSub "definition".toList t || isSub "means".toList t then "definition"
  else if isSub "warranty".toList t then "warranty"
  else if isSub "indemnify".toList t then "indemnity"
  else if isSub "limitation of liability".toList t then "limitation"
  else if isSub "governing law".toList t then "governing_law"
  else if isSub "dispute resolution".toList t then "dispute_resolution"
  else if isSub "force majeure".toList t then "force_majeure"
  else if isSub "assignment".toList t then "assignment"
  else if isSub "confidentiality".toList t then "confidentiality"
  else if isSub "intellectual property".toList t || isSub "ip license".toList t then "ip_license"
  else if isSub "termination".toList t then "termination"
  else if isSub "renewal".toList t then "renewal"
  else if isSub "exclusivity".toList t then "exclusivity"
  else if isSub "non-compete".toList t then "non_compete"
  else "unknown"

/-- Model of `determine_clause_type`: header check, then the transformer
classifier `cls` (an optional fallible labelling function); on absence or
failure, the rule-based fallback.  A successful classifier label is returned
verbatim, with no validation against the taxonomy. -/
def determineClauseType (cls : Option (List Char → Except Unit String))
    (text : List Char) : String :=
  if isClauseHeader text then "header"
  else
    match cls with
    | some f =>
      match f text with
      | .ok label => label
      | .error _ => ruleBasedClauseType text
    | none => ruleBasedClauseType text

/-- The fixed clause taxonomy of the spec glossary. -/
def clauseTaxonomy : List String :=
  ["obligation", "right", "definition", "warranty", "indemnity", "limitation",
   "governing_law", "dispute_resolution", "force_majeure", "assignment",
   "confidentiality", "ip_license", "termination", "renewal", "exclusivity",
   "non_compete", "header", "unknown"]

/-! ## Cross-reference scanning (`find_clause_references`) -/

/-- Match of `(?:Section|Clause)\s+(\d+(?:\.\d+)?(?:[a-z]+)?)` at the head of
the list; on success return the captured token and the remainder after the
match. -/
def refMatch (l : List Char) : Option (List Char × List Char) :=
  let afterKw : Option (List Char) :=
    if leadsWith "Section".toList l then some (l.drop 7)
    else if leadsWith "Clause".toList l then some (l.drop 6)
    else none
  match afterKw with
  | none => none
  | some r1 =>
    let ws := r1.takeWhile isWS
    if ws.isEmpty then none
    else
      let r2 := r1.drop ws.length
      let ds := r2.takeWhile Char.isDigit
      if ds.isEmpty then none
      else
        let r3 := r2.drop ds.length
        let fracRest : List Char × List Char :=
          match r3 with
          | '.' :: r4 =>
            let ds2 := r4.takeWhile Char.isDigit
            if ds2.isEmpty then (([] : List Char), r3)
            else ('.' :: ds2, r4.drop ds2.length)
          | _ => ([], r3)
        let ls := fracRest.2.takeWhile Char.isLower
        some (ds ++ fracRest.1 ++ ls, fracRest.2.drop ls.length)

/-- Model of `re.finditer` over the reference pattern: scan left to right,
emit each captured token, resume after the match. -/
def findRefsAux : Nat → List Char → List (List Char)
  | 0, _ => []
  | _ + 1, [] => []
  | fuel + 1, c :: t =>
    match refMatch (c :: t) with
    | some (tok, rest) => tok :: findRefsAux fuel rest
    | none => findRefsAux fuel t

/-- Model of `find_clause_references`. -/
def findRefs (text : List Char) : List (List Char) := findRefsAux text.length text

/-! ## Extraction-time placeholder risk (`calculate_risk_score`) -/

/-- Model of `ClauseExtractionService.calculate_risk_score`: the
extraction-time placeholder written into `Clause.risk_score`
(0.3 liability, 0.2 terminate, 0.2 exclusive, capped at 1.0). -/
def calcRiskScoreExt (text : List Char) : ℚ :=
  let t := lowerL text
  let s : ℚ :=
    (if isSub "liability".toList t then 3/10 else 0)
    + (if isSub "terminate".toList t then 2/10 else 0)
    + (if isSub "exclusive".toList t then 2/10 else 0)
  min s 1

/-! ## Clause extraction (`extract_clauses`) -/

/-- Model of `extract_clauses`: segment, then build one clause per segment
with sequential ids, classify, score the placeholder risk, scan raw
references, and finally run `build_clause_graph` over the list. -/
def extractClauses (cls : Option (List Char → Except Unit String))
    (sp : List Char → List (List Char)) (text : List Char) : List ClauseL :=
  let segs := segmentText sp text
  buildClauseGraph (segs.enum.map fun p =>
    { id := p.1
      type := determineClauseType cls p.2
      text := p.2
      precision_score := 8/10
      risk_score := calcRiskScoreExt p.2
      references := findRefs p.2
      party := "Unknown" })

/-! ## Risk scoring (`services/risk_scoring.py`) -/

def highRiskKeywords : List (List Char) :=
  ["sole discretion".toList, "unilateral".toList, "without notice".toList,
   "absolute discretion".toList, "indemnify".toList, "hold harmless".toList]

def mediumRiskKeywords : List (List Char) :=
  ["may".toList, "reasonable".toList, "commercially reasonable".toList,
   "material adverse".toList, "best efforts".toList]

def forceMajeurePatterns : List (List Char) :=
  ["act of god".toList, "unforeseen circumstances".toList]

def securityPatterns : List (List Char) :=
  ["data breach".toList, "cybersecurity incident".toList]

def dataPrivacyPatterns : List (List Char) :=
  ["personal data".toList, "personally identifiable information".toList,
   "pii".toList]

/-- Model of `keyword_based_risk`: +0.5 per high-risk keyword contained, +0.2
per medium-risk keyword contained.  (The accompanying factor strings are not
modelled.) -/
def keywordRisk (text : List Char) : ℚ :=
  let s1 := highRiskKeywords.foldl
    (fun acc kw => if isSub kw text then acc + 5/10 else acc) 0
  mediumRiskKeywords.foldl
    (fun acc kw => if isSub kw text then acc + 2/10 else acc) s1

/-- The transformer risk-analyzer tier of `calculate_clause_risk`: when the
analyzer is present and succeeds, its confidence (weighted by label) is the
base score; on failure or absence the keyword tier is the base score. -/
def transformerBase (an : Option (List Char → Except Unit (String × ℚ)))
    (text : List Char) : ℚ :=
  match an with
  | some f =>
    match f text with
    | .ok res =>
      if res.1 = "High Risk" then res.2
      else if res.1 = "Medium Risk" then res.2 * (5/10)
      else 0
    | .error _ => keywordRisk text
  | none => keywordRisk text

/-- Message of the exception raised by `calculate_clause_risk`. -/
def attrErrMsg : String := "AttributeError: str object has no attribute search"

/-- Model of `calculate_clause_risk` as written.  After the base tier, the
clause-type bonus and the auto-renewal bonus (the one pattern checked with
`re.search`), the code evaluates
`any(pattern.search(text) for pattern in self.force_majeure_patterns)` — but
`self.force_majeure_patterns` (like the security and data-privacy lists) holds
plain strings, never compiled patterns, so `.search` raises `AttributeError`
for every clause before the remaining bonuses and the 1.0 cap are reached. -/
def calcClauseRisk (an : Option (List Char → Except Unit (String × ℚ)))
    (c : ClauseL) : Except String ℚ :=
  let text := lowerL c.text
  let s0 := transformerBase an text
  let s1 := s0 + (if c.type = "indemnity" then 4/10
                  else if c.type = "limitation" then 3/10 else 0)
  let _s2 := s1 + (if isSub "automatically renew".toList text then 3/10 else 0)
  Except.error attrErrMsg

/-- Model of `calculate_clause_risk` with the one-line slip repaired: each
pattern string searched in the text (the patterns are plain substrings, so
`re.search` is containment), then the score capped at 1.0. -/
def calcClauseRiskFixed (an : Option (List Char → Except Unit (String × ℚ)))
    (c : ClauseL) : ℚ :=
  let text := lowerL c.text
  let s0 := transformerBase an text
  let s1 := s0 + (if c.type = "indemnity" then 4/10
                  else if c.type = "limitation" then 3/10 else 0)
  let s2 := s1 + (if isSub "automatically renew".toList text then 3/10 else 0)
  let s3 := s2 + (if forceMajeurePatterns.any (fun p => isSub p text) then 4/10 else 0)
  let s4 := s3 + (if securityPatterns.any (fun p => isSub p text) then 5/10 else 0)
  let s5 := s4 + (if dataPrivacyPatterns.any (fun p => isSub p text) then 6/10 else 0)
  min s5 1

/-- Spec-side formula (spec section 4.4): the sum of the additive
contributions named by the spec — clause-type base risk, +0.5 per high-risk
keyword, +0.2 per medium-risk keyword, and the four pattern bonuses — before
the 1.0 cap.  Written from the words of the spec for comparison with the
code-side `calcClauseRiskFixed`. -/
def specClauseContribution (c : ClauseL) : ℚ :=
  (if c.type = "indemnity" then 4/10
   else if c.type = "limitation" then 3/10 else 0)
  + ((highRiskKeywords.map
      (fun kw => if isSub kw (lowerL c.text) then (5/10 : ℚ) else 0)).sum)
  + ((mediumRiskKeywords.map
      (fun kw => if isSub kw (lowerL c.text) then (2/10 : ℚ) else 0)).sum)
  + (if isSub "automatically renew".toList (lowerL c.text) then 3/10 else 0)
  + (if forceMajeurePatterns.any (fun p => isSub p (lowerL c.text)) then 4/10 else 0)
  + (if securityPatterns.any (fun p => isSub p (lowerL c.text)) then 5/10 else 0)
  + (if dataPrivacyPatterns.any (fun p => isSub p (lowerL c.text)) then 6/10 else 0)

/-- Model of `calibrate_overall_risk_score`. -/
def calibrateOverallRiskScore (score : ℚ) (contractType : String) : ℚ :=
  if contractType = "NDA" then min 20 (score * 20)
  else if contractType = "MSA" then min 85 (70 + score * 15)
  else score

/-- Model of `calculate_compliance_score`: the sensitive-data indicator is a
membership test of `"personal information"` / `"data privacy"` in the
high-risk keyword list (both absent), so the 0.4 branch is unreachable. -/
def calculateComplianceScore (overall : ℚ) : ℚ :=
  if overall > 7/10 ∧ ("personal information".toList ∈ highRiskKeywords
      ∨ "data privacy".toList ∈ highRiskKeywords) then 4/10
  else 8/10

def adviceSuggestion : List Char :=
  "Consider seeking legal advice to review high-risk clauses.".toList

def reviewSuggestion (id : Nat) : List Char :=
  "Review clause ".toList ++ natRepr id ++ " due to high-risk keywords.".toList

/-- Model of `generate_suggestions`: a global suggestion when the (calibrated)
overall score exceeds 0.6, then one suggestion per clause whose stored
`risk_score` field exceeds 0.8. -/
def generateSuggestions (clauses : List ClauseL) (overall : ℚ) : List (List Char) :=
  (if overall > 6/10 then [adviceSuggestion] else [])
    ++ clauses.filterMap
      (fun c => if c.risk_score > 8/10 then some (reviewSuggestion c.id) else none)

/-- Model of the pydantic `RiskReport`.  Each `clause_risks` entry carries the
clause id and its computed score (the factor strings are not modelled); the
`negotiation_points` keyword passed by `score_clauses` is silently discarded
because the model declares no such field. -/
structure RiskReportL where
  clause_risks : List (Nat × ℚ)
  overall_score : ℚ
  compliance_score : ℚ
  suggestions : List (List Char)
deriving Repr

/-- Model of `score_clauses` as written: per-clause risks (each raising, see
`calcClauseRisk`), mean, calibration (the contract type is hard-coded to
`"MSA"`), compliance, suggestions. -/
def scoreClauses (an : Option (List Char → Except Unit (String × ℚ)))
    (clauses : List ClauseL) : Except String RiskReportL := do
  let risks ← clauses.mapM (fun c => (calcClauseRisk an c).map (fun s => (c.id, s)))
  let total := (risks.map (·.2)).sum
  let meanScore : ℚ := if clauses.length > 0 then total / clauses.length else 0
  let overall := calibrateOverallRiskScore meanScore "MSA"
  pure { clause_risks := risks
         overall_score := overall
         compliance_score := calculateComplianceScore overall
         suggestions := generateSuggestions clauses overall }

/-- Model of `score_clauses` with the `calculate_clause_risk` slip
repaired. -/
def scoreClausesFixed (an : Option (List Char → Except Unit (String × ℚ)))
    (clauses : List ClauseL) : RiskReportL :=
  let risks := clauses.map (fun c => (c.id, calcClauseRiskFixed an c))
  let total := (risks.map (·.2)).sum
  let meanScore : ℚ := if clauses.length > 0 then total / clauses.length else 0
  let overall := calibrateOverallRiskScore meanScore "MSA"
  { clause_risks := risks
    overall_score := overall
    compliance_score := calculateComplianceScore overall
    suggestions := generateSuggestions clauses overall }

/-! ## Concrete fixtures used by counterexamples and witnesses -/

/-- Scenario clause of spec section 8: type `indemnity`, text containing
exactly the strings `"indemnify"` and `"without notice"` (each a high-risk
keyword) and nothing else that scores. -/
def cScenario : ClauseL :=
  { id := 0, type := "indemnity", text := "indemnify without notice".toList,
    precision_score := 8/10, risk_score := 0, references := [], party := "Unknown" }

/-- First clause of a two-clause sequence, carrying the raw reference token
`"2"` scanned from a text like `"See Section 2 for details."`. -/
def cSee2 : ClauseL :=
  { id := 0, type := "unknown", text := "See Section 2 for details.".toList,
    precision_score := 8/10, risk_score := 0, references := [['2']],
    party := "Unknown" }

/-- Second clause of the two-clause sequence. -/
def cPlain : ClauseL :=
  { id := 1, type := "confidentiality", text := "Confidentiality survives.".toList,
    precision_score := 8/10, risk_score := 0, references := [], party := "Unknown" }

/-- Single clause whose reference token `"1"` resolves to the clause itself
(id 0). -/
def cSelf : ClauseL :=
  { id := 0, type := "unknown", text := "See Section 1 for details.".toList,
    precision_score := 8/10, risk_score := 0, references := [['1']],
    party := "Unknown" }

/-- Single clause carrying the unresolvable reference token `"5"`. -/
def cFive : ClauseL :=
  { id := 0, type := "unknown", text := "See Section 5.".toList,
    precision_score := 8/10, risk_score := 0, references := [['5']],
    party := "Unknown" }

/-- A non-header segment used to probe the classifier path. -/
def sampleSegment : List Char := "The parties agree to the following terms.".toList

/-- The characters of the text `"liability"`. -/
def liabilityChars : List Char := ['l', 'i', 'a', 'b', 'i', 'l', 'i', 't', 'y']

/-- The clause that `extract_clauses` produces from the input `"liability"`
(with a single-sentence splitter): placeholder risk 0.3 written at extraction
time. -/
def cLiability : ClauseL :=
  { id := 0, type := "unknown", text := liabilityChars,
    precision_score := 8/10, risk_score := calcRiskScoreExt liabilityChars,
    references := [], party := "Unknown" }

/-! ## Theorems: decimal numerals -/

theorem natValDigits_natDigitsAux (fuel n : Nat) (h : n ≤ fuel) :
    natValDigits (natDigitsAux fuel n) = n := by
  induction fuel generalizing n with
  | zero => interval_cases n; rfl
  | succ f ih =>
    by_cases hn : n = 0
    · simp [natDigitsAux, hn, natValDigits]
    · have hdiv : n / 10 ≤ f := by
        have := Nat.div_lt_self (Nat.pos_of_ne_zero hn) (by norm_num : (1:ℕ) < 10)
        omega
      simp only [natDigitsAux, hn, if_false, natValDigits, List.foldr]
      have := ih (n / 10) hdiv
      simp only [natValDigits] at this
      rw [this]
      omega

theorem natDigitsAux_lt_ten (fuel n : Nat) : ∀ d ∈ natDigitsAux fuel n, d < 10 := by
  induction fuel generalizing n with
  | zero => simp [natDigitsAux]
  | succ f ih =>
    intro d hd
    by_cases hn : n = 0
    · simp [natDigitsAux, hn] at hd
    · simp only [natDigitsAux, hn, if_false, List.mem_cons] at hd
      rcases hd with h | h
      · omega
      · exact ih _ _ h

theorem digitVal_digitChar (d : Nat) (h : d < 10) : digitVal (digitChar d) = d := by
  interval_cases d <;> rfl

/-- The printed form of an id evaluates back to the id: `natVal` inverts
`natRepr`. -/
theorem natVal_natRepr (n : Nat) : natVal (natRepr n) = n := by
  by_cases hn : n = 0
  · subst hn; rfl
  · simp only [natRepr, hn, if_false, natVal, List.reverse_reverse, List.map_map]
    have hmap : (natDigits n).map (digitVal ∘ digitChar) = (natDigits n).map id := by
      apply List.map_congr_left
      intro d hd
      exact digitVal_digitChar d (natDigitsAux_lt_ten n n d hd)
    rw [hmap, List.map_id]
    exact natValDigits_natDigitsAux n n le_rfl

/-! ## Theorems: the reference walk -/

theorem resolveRef_some {ids : List Nat} {r : List Char} {i : Nat}
    (h : resolveRef ids r = some i) : natRepr (i + 1) = r := by
  have := List.find?_some h
  exact eq_of_beq this

/-- Once the fuel covers the walk measure, more fuel does not change the
result. -/
theorem chaseF_congr : ∀ (f1 f2 : Nat) (ids : List Nat) (q : List (List Char)),
    (q.map natVal).sum + q.length ≤ f1 → (q.map natVal).sum + q.length ≤ f2 →
    chaseF f1 ids q = chaseF f2 ids q := by
  intro f1
  induction f1 with
  | zero =>
    intro f2 ids q h1 h2
    have hq : q = [] := by
      cases q with
      | nil => rfl
      | cons a t => simp at h1
    subst hq
    cases f2 <;> rfl
  | succ f ih =>
    intro f2 ids q h1 h2
    cases q with
    | nil => cases f2 <;> rfl
    | cons r t =>
      cases f2 with
      | zero => simp at h2
      | succ g =>
        simp only [List.map_cons, List.sum_cons, List.length_cons] at h1 h2
        cases hres : resolveRef ids r with
        | some i =>
          have hv : natVal r = i + 1 := by rw [← resolveRef_some hres, natVal_natRepr]
          have hb : ((t ++ [natRepr i]).map natVal).sum + (t ++ [natRepr i]).length
              = (t.map natVal).sum + t.length + natVal r := by
            simp only [List.map_append, List.sum_append, List.map_cons, List.sum_cons,
              List.map_nil, List.sum_nil, List.length_append, List.length_cons,
              List.length_nil, natVal_natRepr]
            omega
          simp only [chaseF, hres]
          rw [ih g ids (t ++ [natRepr i]) (by omega) (by omega)]
        | none =>
          simp only [chaseF, hres]
          exact ih g ids t (by omega) (by omega)

theorem chase_nil (ids : List Nat) : chase ids [] = [] := rfl

/-- The loop equation for a resolvable head token: its target id is appended
and later processed itself. -/
theorem chase_cons_some (ids : List Nat) (r : List Char) (t : List (List Char))
    (i : Nat) (h : resolveRef ids r = some i) :
    chase ids (r :: t) = natRepr i :: chase ids (t ++ [natRepr i]) := by
  have hv : natVal r = i + 1 := by rw [← resolveRef_some h, natVal_natRepr]
  have hM : ((r :: t).map natVal).sum + (r :: t).length
      = (((t ++ [natRepr i]).map natVal).sum + (t ++ [natRepr i]).length) + 1 := by
    simp only [List.map_append, List.sum_append, List.map_cons, List.sum_cons,
      List.map_nil, List.sum_nil, List.length_append, List.length_cons,
      List.length_nil, natVal_natRepr, hv]
    omega
  show chaseF _ ids (r :: t) = _
  rw [hM]
  simp only [chaseF, h]
  rfl

/-- The loop equation for an unresolvable head token: nothing is appended. -/
theorem chase_cons_none (ids : List Nat) (r : List Char) (t : List (List Char))
    (h : resolveRef ids r = none) :
    chase ids (r :: t) = chase ids t := by
  have hM : ((r :: t).map natVal).sum + (r :: t).length
      = ((t.map natVal).sum + t.length + natVal r) + 1 := by
    simp only [List.map_cons, List.sum_cons, List.length_cons]
    omega
  show chaseF _ ids (r :: t) = chaseF _ ids t
  rw [hM]
  simp only [chaseF, h]
  exact chaseF_congr _ _ ids t (by omega) le_rfl

theorem chaseF_mem_resolved : ∀ (fuel : Nat) (ids : List Nat)
    (q : List (List Char)) (r : List Char) (i : Nat),
    (q.map natVal).sum + q.length ≤ fuel → r ∈ q → resolveRef ids r = some i →
    natRepr i ∈ chaseF fuel ids q := by
  intro fuel
  induction fuel with
  | zero =>
    intro ids q r i hb hq _
    cases q with
    | nil => simp at hq
    | cons a t => simp at hb
  | succ f ih =>
    intro ids q r i hb hq hres
    cases q with
    | nil => simp at hq
    | cons r0 t =>
      simp only [List.map_cons, List.sum_cons, List.length_cons] at hb
      rcases List.mem_cons.1 hq with rfl | hmem
      · rw [show chaseF (f + 1) ids (r :: t)
            = match resolveRef ids r with
              | some j => natRepr j :: chaseF f ids (t ++ [natRepr j])
              | none => chaseF f ids t from rfl]
        rw [hres]
        exact List.mem_cons_self _ _
      · cases hres0 : resolveRef ids r0 with
        | some j =>
          have hv : natVal r0 = j + 1 := by rw [← resolveRef_some hres0, natVal_natRepr]
          simp only [chaseF, hres0]
          refine List.mem_cons_of_mem _ (ih ids (t ++ [natRepr j]) r i ?_
            (List.mem_append_left _ hmem) hres)
          simp [natVal_natRepr, hv]
          omega
        | none =>
          simp only [chaseF, hres0]
          exact ih ids t r i (by omega) hmem hres

/-- Every entry of the queue that resolves contributes its target id to the
appended entries. -/
theorem chase_mem_resolved {ids : List Nat} {q : List (List Char)}
    {r : List Char} {i : Nat} (hq : r ∈ q) (h : resolveRef ids r = some i) :
    natRepr i ∈ chase ids q :=
  chaseF_mem_resolved _ ids q r i le_rfl hq h

theorem chaseF_none : ∀ (fuel : Nat) (ids : List Nat) (q : List (List Char)),
    (∀ r ∈ q, resolveRef ids r = none) → chaseF fuel ids q = [] := by
  intro fuel
  induction fuel with
  | zero => intro ids q _; rfl
  | succ f ih =>
    intro ids q h
    cases q with
    | nil => rfl
    | cons r t =>
      simp only [chaseF, h r (List.mem_cons_self _ _)]
      exact ih ids t (fun s hs => h s (List.mem_cons_of_mem _ hs))

/-- When nothing in the queue resolves, nothing is appended. -/
theorem chase_eq_nil_of_none (ids : List Nat) (q : List (List Char))
    (h : ∀ r ∈ q, resolveRef ids r = none) : chase ids q = [] :=
  chaseF_none _ ids q h

/-! ## Claim C2: idempotence of reference resolution -/

/-- C2 (counterexample).  The claim says running `build_clause_graph` twice
yields the same `references` content with no duplicated entries.  On the
two-clause sequence `[cSee2, cPlain]` (clause 0 carries the raw token `"2"`),
one run already appends the whole chain `"1", "0"`; a second run re-resolves
every resolvable entry and appends `"1", "0", "0"` again, so the content
differs and contains duplicates. -/
theorem c2_counterexample :
    (buildClauseGraph [cSee2, cPlain]).map (·.references)
      = [[['2'], ['1'], ['0']], []]
    ∧ (buildClauseGraph (buildClauseGraph [cSee2, cPlain])).map (·.references)
      = [[['2'], ['1'], ['0'], ['1'], ['0'], ['0']], []]
    ∧ (buildClauseGraph (buildClauseGraph [cSee2, cPlain])).map (·.references)
      ≠ (buildClauseGraph [cSee2, cPlain]).map (·.references)
    ∧ ¬ ([['2'], ['1'], ['0'], ['1'], ['0'], ['0']] : List (List Char)).Nodup := by
  exact ⟨by decide, by decide, by decide, by decide⟩

/-- C2 (amended).  Reference resolution is not idempotent: whenever any entry
of a clause's `references` resolves, a second run of `build_clause_graph`
strictly lengthens that clause's `references` (re-appending resolved ids), so
resolving twice changes the content and duplicates entries. -/
theorem c2_not_idempotent (ids : List Nat) (refs : List (List Char))
    (h : ∃ r ∈ refs, (resolveRef ids r).isSome) :
    (newRefs ids (newRefs ids refs)).length > (newRefs ids refs).length := by
  obtain ⟨r, hr, hsome⟩ := h
  obtain ⟨i, hi⟩ := Option.isSome_iff_exists.1 hsome
  have h1 : natRepr i ∈ chase ids (newRefs ids refs) :=
    chase_mem_resolved (List.mem_append_left _ hr) hi
  have h2 : chase ids (newRefs ids refs) ≠ [] := by
    intro h0
    rw [h0] at h1
    simp at h1
  have h3 : 0 < (chase ids (newRefs ids refs)).length := List.length_pos.2 h2
  have h4 : (newRefs ids (newRefs ids refs)).length
      = (newRefs ids refs).length + (chase ids (newRefs ids refs)).length := by
    simp only [newRefs, List.length_append]
  omega

/-- C2 (witness): the hypothesis of `c2_not_idempotent` holds at the concrete
two-clause instance. -/
theorem c2_witness :
    (∃ r ∈ [[('2' : Char)]], (resolveRef [0, 1] r).isSome)
    ∧ (newRefs [0, 1] (newRefs [0, 1] [['2']])).length
        > (newRefs [0, 1] [['2']]).length :=
  ⟨by decide, c2_not_idempotent [0, 1] [['2']] (by decide)⟩

/-! ## Claim C3: self-references -/

/-- C3 (counterexample).  The claim says a clause's `references` never
contains the clause's own id.  For the single clause `cSelf` (id 0, raw token
`"1"`), the token resolves to the clause itself and `build_clause_graph`
appends `"0"` — the string of its own id — with no self-reference filter. -/
theorem c3_counterexample :
    (buildClauseGraph [cSelf]).map (·.references) = [[['1'], ['0']]]
    ∧ cSelf.id = 0
    ∧ natRepr 0 = ['0']
    ∧ (['0'] : List Char) ∈ [[('1' : Char)], ['0']] := by
  exact ⟨by decide, by decide, by decide, by decide⟩

/-- C3 (amended).  Self-references are not dropped: whenever an entry of a
clause's `references` resolves (by the `id + 1` rule) to some clause id —
including the clause's own id — `build_clause_graph` appends the printed
target id to that clause's `references`. -/
theorem c3_self_reference_kept (cs : List ClauseL) (c : ClauseL) (hc : c ∈ cs)
    (r : List Char) (hr : r ∈ c.references)
    (hres : resolveRef (cs.map (·.id)) r = some c.id) :
    ∃ c2 ∈ buildClauseGraph cs, c2.id = c.id ∧ natRepr c2.id ∈ c2.references := by
  refine ⟨{ c with references := newRefs (cs.map (·.id)) c.references },
    List.mem_map_of_mem _ hc, rfl, ?_⟩
  exact List.mem_append_right _ (chase_mem_resolved hr hres)

/-- C3 (witness): the hypotheses of `c3_self_reference_kept` hold at the
concrete self-referencing clause. -/
theorem c3_witness :
    cSelf ∈ [cSelf]
    ∧ (['1'] : List Char) ∈ cSelf.references
    ∧ resolveRef ([cSelf].map (·.id)) ['1'] = some cSelf.id
    ∧ ∃ c2 ∈ buildClauseGraph [cSelf], c2.id = cSelf.id
        ∧ natRepr c2.id ∈ c2.references :=
  ⟨List.mem_singleton.2 rfl, by decide, by decide,
    c3_self_reference_kept [cSelf] cSelf (List.mem_singleton.2 rfl) ['1']
      (by decide) (by decide)⟩

/-! ## Claim C6: reference resolution rule and unresolvable tokens -/

/-- C6 (counterexample).  The claim says an unresolvable token is dropped.
For the single clause `cFive` (raw token `"5"`, scanned from
`"See Section 5."`), no clause resolves the token, and after
`build_clause_graph` the raw token is still present in `references` — it is
not removed; only the failed resolution is skipped. -/
theorem c6_counterexample :
    findRefs "See Section 5.".toList = [['5']]
    ∧ resolveRef ([cFive].map (·.id)) ['5'] = none
    ∧ (buildClauseGraph [cFive]).map (·.references) = [[['5']]] := by
  exact ⟨by decide, by decide, by decide⟩

/-- C6 (amended).  The scanner captures `"2"` from
`"See Section 2 for details."`; in a two-clause sequence the token resolves to
clause id 1 (the rule being that a resolved token prints the target id plus
one, i.e. Section N maps to id N−1) and the printed id `"1"` is appended; a
token that no clause resolves causes no append and no error, and the raw
token itself remains in `references`. -/
theorem c6_resolution_amended :
    findRefs "See Section 2 for details.".toList = [['2']]
    ∧ resolveRef [0, 1] ['2'] = some 1
    ∧ natRepr 1 ∈ newRefs [0, 1] [['2']]
    ∧ (∀ (ids : List Nat) (r : List Char) (i : Nat),
        resolveRef ids r = some i → natRepr (i + 1) = r)
    ∧ (∀ (ids : List Nat) (refs : List (List Char)),
        (∀ r ∈ refs, resolveRef ids r = none) → newRefs ids refs = refs) := by
  refine ⟨by decide, by decide, by decide, ?_, ?_⟩
  · intro ids r i h
    exact resolveRef_some h
  · intro ids refs h
    simp [newRefs, chase_eq_nil_of_none ids refs h]

/-- C6 (witness): the hypotheses of the two universally quantified parts of
`c6_resolution_amended` hold at concrete instances. -/
theorem c6_witness :
    natRepr (1 + 1) = ['2'] ∧ newRefs [0] [['7']] = [['7']] :=
  ⟨c6_resolution_amended.2.2.2.1 [0, 1] ['2'] 1 (by decide),
    c6_resolution_amended.2.2.2.2 [0] [['7']] (by decide)⟩

/-! ## Claim C4: classification labels -/

theorem ite_label_mem {c : Prop} [Decidable c] {a b : String} {T : List String}
    (ha : a ∈ T) (hb : b ∈ T) : (if c then a else b) ∈ T := by
  by_cases h : c
  · rw [if_pos h]; exact ha
  · rw [if_neg h]; exact hb

theorem ruleBasedClauseType_mem (text : List Char) :
    ruleBasedClauseType text ∈ clauseTaxonomy := by
  unfold ruleBasedClauseType
  dsimp only
  repeat' apply ite_label_mem
  all_goals decide

theorem header_mem : "header" ∈ clauseTaxonomy := by decide

/-- C4 (counterexample).  The claim says classification always returns a label
from the fixed taxonomy, also when the primary classifier is available.  But
`determine_clause_type` returns a successful classifier label verbatim: with a
classifier emitting the NLI label `"entailment"` (the configured model
`cross-encoder/nli-distilroberta-base` is an NLI model) on a non-header
segment, the result is `"entailment"`, which is not in the taxonomy. -/
theorem c4_counterexample :
    determineClauseType (some (fun _ => Except.ok "entailment")) sampleSegment
      = "entailment"
    ∧ "entailment" ∉ clauseTaxonomy := by
  exact ⟨by decide, by decide⟩

/-- C4 (amended).  Classification is total and never raises (the model is a
total function); the label lies in the fixed taxonomy whenever the fallback
path is used — classifier absent, or classifier failing — and on the header
path; but when the primary classifier succeeds on a non-header segment its
label is returned verbatim, unconstrained by the taxonomy. -/
theorem c4_classify_amended (f : List Char → Except Unit String)
    (text : List Char) :
    determineClauseType none text ∈ clauseTaxonomy
    ∧ (f text = Except.error () → determineClauseType (some f) text ∈ clauseTaxonomy)
    ∧ (∀ label, f text = Except.ok label → isClauseHeader text = false →
        determineClauseType (some f) text = label) := by
  refine ⟨?_, ?_, ?_⟩
  · by_cases h : isClauseHeader text <;>
      simp [determineClauseType, h, ruleBasedClauseType_mem, header_mem]
  · intro herr
    by_cases h : isClauseHeader text <;>
      simp [determineClauseType, h, herr, ruleBasedClauseType_mem, header_mem]
  · intro label hok hhead
    simp [determineClauseType, hhead, hok]

/-- C4 (witness): the hypotheses of both conditional parts of
`c4_classify_amended` hold at concrete classifiers on `sampleSegment`. -/
theorem c4_witness :
    determineClauseType (some (fun _ => Except.error ())) sampleSegment ∈ clauseTaxonomy
    ∧ determineClauseType (some (fun _ => Except.ok "entailment")) sampleSegment
        = "entailment" :=
  ⟨(c4_classify_amended (fun _ => Except.error ()) sampleSegment).2.1 rfl,
    (c4_classify_amended (fun _ => Except.ok "entailment") sampleSegment).2.2
      "entailment" rfl (by decide)⟩

/-! ## Claim C1: per-clause risk score -/

/-- Accumulating a weight per matching keyword is the sum of the per-keyword
indicator contributions. -/
theorem foldl_keyword_sum (text : List Char) (l : List (List Char)) (w : ℚ) :
    ∀ a : ℚ, l.foldl (fun acc kw => if isSub kw text then acc + w else acc) a
      = a + (l.map (fun kw => if isSub kw text then w else 0)).sum := by
  induction l with
  | nil => intro a; simp
  | cons kw t ih =>
    intro a
    simp only [List.foldl_cons, List.map_cons, List.sum_cons, ih]
    split_ifs <;> ring

theorem keywordRisk_eq (text : List Char) :
    keywordRisk text
      = (highRiskKeywords.map (fun kw => if isSub kw text then (5/10 : ℚ) else 0)).sum
        + (mediumRiskKeywords.map (fun kw => if isSub kw text then (2/10 : ℚ) else 0)).sum := by
  simp only [keywordRisk, foldl_keyword_sum]
  ring

theorem specContribution_cScenario : specClauseContribution cScenario = 14/10 := by
  simp +decide [specClauseContribution, highRiskKeywords, mediumRiskKeywords,
    forceMajeurePatterns, securityPatterns, dataPrivacyPatterns, cScenario]
  norm_num

theorem calcFixed_cScenario : calcClauseRiskFixed none cScenario = 1 := by
  simp +decide [calcClauseRiskFixed, transformerBase, keywordRisk, highRiskKeywords,
    mediumRiskKeywords, forceMajeurePatterns, securityPatterns, dataPrivacyPatterns,
    cScenario]
  norm_num

/-- C1 (counterexample).  The claim predicts score exactly 0.9 for the
scenario clause.  As written, `calculate_clause_risk` raises `AttributeError`
on every clause (the pattern lists hold plain strings); and even with that
slip repaired the scenario clause scores `min(0.4 + 0.5 + 0.5, 1) = 1`, not
0.9, because `"indemnify"` and `"without notice"` are two distinct high-risk
keywords. -/
theorem c1_counterexample :
    calcClauseRisk none cScenario = Except.error attrErrMsg
    ∧ calcClauseRiskFixed none cScenario = 1
    ∧ specClauseContribution cScenario = 14/10
    ∧ (1 : ℚ) ≠ 9/10 := by
  refine ⟨rfl, calcFixed_cScenario, specContribution_cScenario, by norm_num⟩

/-- C1 (amended).  As written, `calculate_clause_risk` raises `AttributeError`
for every clause and analyzer state, before the cap is reached.  With the
pattern-list slip repaired (each pattern searched as the auto-renewal one is),
the per-clause score on the keyword path is exactly the sum of the additive
contributions listed in the spec — clause-type base risk, +0.5 per high-risk
keyword, +0.2 per medium-risk keyword, and the four pattern bonuses — capped
at 1.0, and any contribution sum at least 1 yields exactly 1.  In the spec
scenario the contributions sum to 1.4 (two high-risk keywords hit), so the
score is 1.0, not 0.9. -/
theorem c1_clause_risk_amended (an : Option (List Char → Except Unit (String × ℚ)))
    (c : ClauseL) :
    calcClauseRisk an c = Except.error attrErrMsg
    ∧ calcClauseRiskFixed none c = min (specClauseContribution c) 1
    ∧ (1 ≤ specClauseContribution c → calcClauseRiskFixed none c = 1) := by
  have heq : calcClauseRiskFixed none c = min (specClauseContribution c) 1 := by
    simp only [calcClauseRiskFixed, transformerBase, specClauseContribution,
      keywordRisk_eq]
    exact congrArg (fun x => min x 1) (by ring)
  refine ⟨rfl, heq, ?_⟩
  intro h
  rw [heq, min_eq_right h]

/-- C1 (witness): the cap hypothesis of `c1_clause_risk_amended` holds at the
scenario clause, whose contributions sum to 1.4. -/
theorem c1_witness :
    1 ≤ specClauseContribution cScenario
    ∧ calcClauseRiskFixed none cScenario = 1 :=
  ⟨by rw [specContribution_cScenario]; norm_num,
    (c1_clause_risk_amended none cScenario).2.2
      (by rw [specContribution_cScenario]; norm_num)⟩

/-! ## Claim C5: aggregation and contract-type calibration -/

/-- C5: `score_clauses` raises before any report is produced for a non-empty
clause list (see `calcClauseRisk`), while the calibration map itself satisfies
exactly the claimed formulas and ranges, and — with the per-clause slip
repaired — the report's overall score is the calibrated mean of the computed
per-clause scores, the contract type being hard-coded to `"MSA"`. -/
theorem c5_calibration_and_crash (s : ℚ) (hs0 : 0 ≤ s) (hs1 : s ≤ 1)
    (t : String) (hnda : t ≠ "NDA") (hmsa : t ≠ "MSA")
    (an : Option (List Char → Except Unit (String × ℚ)))
    (clauses : List ClauseL) (hne : clauses ≠ []) :
    scoreClauses none [cScenario] = Except.error attrErrMsg
    ∧ calibrateOverallRiskScore s "NDA" = min 20 (s * 20)
    ∧ calibrateOverallRiskScore s "NDA" = s * 20
    ∧ 0 ≤ calibrateOverallRiskScore s "NDA"
    ∧ calibrateOverallRiskScore s "NDA" ≤ 20
    ∧ calibrateOverallRiskScore s "MSA" = min 85 (70 + s * 15)
    ∧ calibrateOverallRiskScore s "MSA" = 70 + s * 15
    ∧ 70 ≤ calibrateOverallRiskScore s "MSA"
    ∧ calibrateOverallRiskScore s "MSA" ≤ 85
    ∧ calibrateOverallRiskScore s t = s
    ∧ (scoreClausesFixed an clauses).overall_score
        = calibrateOverallRiskScore
            ((clauses.map (calcClauseRiskFixed an)).sum / clauses.length) "MSA" := by
  refine ⟨rfl, by simp [calibrateOverallRiskScore], ?_, ?_, ?_, by
    simp [calibrateOverallRiskScore], ?_, ?_, ?_, by
    simp [calibrateOverallRiskScore, hnda, hmsa], ?_⟩
  · simp only [calibrateOverallRiskScore, if_pos rfl]
    exact min_eq_right (by nlinarith)
  · simp only [calibrateOverallRiskScore, if_pos rfl]
    exact le_min (by norm_num) (by nlinarith)
  · simp only [calibrateOverallRiskScore, if_pos rfl]
    exact min_le_left _ _
  · simp only [calibrateOverallRiskScore]
    norm_num
    exact min_eq_right (by nlinarith)
  · simp only [calibrateOverallRiskScore]
    norm_num
    exact le_min (by norm_num) (by nlinarith)
  · simp only [calibrateOverallRiskScore]
    norm_num
    exact min_le_left _ _
  · have hlen : clauses.length > 0 := List.length_pos.2 hne
    simp only [scoreClausesFixed, List.map_map, Function.comp]
    rw [if_pos hlen]
    rfl

/-- C5 (witness): the hypotheses of `c5_calibration_and_crash` hold at
`s = 1/2`, `t = "SOW"`, `an = none`, `clauses = [cScenario]`. -/
theorem c5_witness :
    ((0 : ℚ) ≤ 1/2) ∧ ((1/2 : ℚ) ≤ 1)
    ∧ ("SOW" : String) ≠ "NDA" ∧ ("SOW" : String) ≠ "MSA"
    ∧ ([cScenario] : List ClauseL) ≠ []
    ∧ (scoreClauses none [cScenario] = Except.error attrErrMsg
      ∧ calibrateOverallRiskScore (1/2) "NDA" = min 20 (1/2 * 20)
      ∧ calibrateOverallRiskScore (1/2) "NDA" = 1/2 * 20
      ∧ 0 ≤ calibrateOverallRiskScore (1/2) "NDA"
      ∧ calibrateOverallRiskScore (1/2) "NDA" ≤ 20
      ∧ calibrateOverallRiskScore (1/2) "MSA" = min 85 (70 + 1/2 * 15)
      ∧ calibrateOverallRiskScore (1/2) "MSA" = 70 + 1/2 * 15
      ∧ 70 ≤ calibrateOverallRiskScore (1/2) "MSA"
      ∧ calibrateOverallRiskScore (1/2) "MSA" ≤ 85
      ∧ calibrateOverallRiskScore (1/2) "SOW" = 1/2
      ∧ (scoreClausesFixed none [cScenario]).overall_score
          = calibrateOverallRiskScore
              (([cScenario].map (calcClauseRiskFixed none)).sum / [cScenario].length)
              "MSA") :=
  ⟨by norm_num, by norm_num, by decide, by decide, by simp,
    c5_calibration_and_crash (1/2) (by norm_num) (by norm_num) "SOW"
      (by decide) (by decide) none [cScenario] (by simp)⟩

/-! ## Claim C7: suggestions -/

/-- C7: the global suggestion is present in `generate_suggestions` output
exactly when the overall score exceeds 0.6; but per-clause suggestions are
keyed off the stored `risk_score` field, which `score_clauses` never writes —
the scenario clause has stored risk 0 and (repaired) computed risk 1 > 0.8,
yet the suggestion list for it contains only the global entry; and as written
`score_clauses` raises before producing any report for a non-empty list. -/
theorem c7_suggestions_behavior :
    (∀ (clauses : List ClauseL) (s : ℚ),
        adviceSuggestion ∈ generateSuggestions clauses s ↔ s > 6/10)
    ∧ scoreClauses none [cScenario] = Except.error attrErrMsg
    ∧ calcClauseRiskFixed none cScenario = 1
    ∧ ((8 : ℚ)/10 < 1)
    ∧ cScenario.risk_score = 0
    ∧ generateSuggestions [cScenario] 85 = [adviceSuggestion] := by
  refine ⟨?_, rfl, calcFixed_cScenario, by norm_num, rfl, ?_⟩
  · intro clauses s
    constructor
    · intro h
      rcases List.mem_append.1 h with h1 | h2
      · by_cases hs : s > 6/10
        · exact hs
        · rw [if_neg hs] at h1
          simp at h1
      · exfalso
        rcases List.mem_filterMap.1 h2 with ⟨c, _, hc⟩
        by_cases hr : c.risk_score > 8/10
        · rw [if_pos hr] at hc
          have := Option.some.inj hc
          have hhead := congrArg List.head? this
          simp [reviewSuggestion, adviceSuggestion] at hhead
        · rw [if_neg hr] at hc
          exact Option.noConfusion hc
    · intro hs
      exact List.mem_append_left _ (by rw [if_pos hs]; exact List.mem_singleton.2 rfl)
  · have hr : ¬ (cScenario.risk_score > 8/10) := by
      rw [show cScenario.risk_score = 0 from rfl]
      norm_num
    simp [generateSuggestions, hr]
    norm_num

/-! ## Claim C10: the empty clause list -/

/-- C10: for the empty clause list `score_clauses` terminates normally (the
mean is taken only for non-empty lists, and the per-clause loop — the only
raising part — never runs): the report has empty `clause_risks`, overall
score exactly 70 (the MSA calibration of 0), compliance score 0.8, and no
per-clause suggestion (the suggestion list is exactly the single global
entry, present because 70 > 0.6). -/
theorem c10_empty_report (an : Option (List Char → Except Unit (String × ℚ))) :
    scoreClauses an [] = Except.ok
      { clause_risks := [], overall_score := 70, compliance_score := 8/10,
        suggestions := [adviceSuggestion] } := by
  simp +decide [scoreClauses, calibrateOverallRiskScore, calculateComplianceScore,
    generateSuggestions, highRiskKeywords, List.mapM, List.mapM.loop, Except.map,
    pure, Except.pure, Bind.bind, Except.bind]
  norm_num

/-! ## Claims C8 and C9: clause extraction -/

/-- Characterisation of membership in `extract_clauses` output: every clause
is the graph-enriched image of an enumerated segment; its text is a stripped
sentence of the splitter, and its stored risk score is the extraction-time
placeholder of its text. -/
theorem mem_extractClauses_shape
    {cls : Option (List Char → Except Unit String)}
    {sp : List Char → List (List Char)} {text : List Char} {c : ClauseL}
    (hc : c ∈ extractClauses cls sp text) :
    (∃ seg s, s ∈ sp seg ∧ c.text = stripL s)
    ∧ c.risk_score = calcRiskScoreExt c.text := by
  simp only [extractClauses, buildClauseGraph] at hc
  rcases List.mem_map.1 hc with ⟨c0, hc0, rfl⟩
  rcases List.mem_map.1 hc0 with ⟨p, hp, rfl⟩
  obtain ⟨i, st⟩ := p
  have hst : st ∈ segmentText sp text := by
    rw [List.enum_eq_zip_range] at hp
    exact (List.of_mem_zip hp).2
  simp only [segmentText, List.mem_flatten] at hst
  rcases hst with ⟨l, hl, hstl⟩
  rcases List.mem_map.1 hl with ⟨seg, _, rfl⟩
  rcases List.mem_map.1 hstl with ⟨s, hs, rfl⟩
  exact ⟨⟨seg, s, hs, rfl⟩, rfl⟩

/-- Dropping a whitespace run preserves the presence of a non-whitespace
character. -/
theorem exists_not_ws_dropWhile {l : List Char}
    (h : ∃ ch ∈ l, isWS ch = false) :
    ∃ ch ∈ l.dropWhile isWS, isWS ch = false := by
  induction l with
  | nil => simp at h
  | cons a t ih =>
    by_cases ha : isWS a
    · rw [List.dropWhile_cons_of_pos ha]
      rcases h with ⟨ch, hch, hws⟩
      rcases List.mem_cons.1 hch with rfl | hmem
      · exact absurd ha (by simp [hws])
      · exact ih ⟨ch, hmem, hws⟩
    · rw [List.dropWhile_cons_of_neg ha]
      rcases h with ⟨ch, hch, hws⟩
      exact ⟨ch, hch, hws⟩

/-- Stripping preserves the presence of a non-whitespace character. -/
theorem exists_not_ws_stripL {s : List Char}
    (h : ∃ ch ∈ s, isWS ch = false) :
    ∃ ch ∈ stripL s, isWS ch = false := by
  unfold stripL
  have h1 := exists_not_ws_dropWhile h
  have h2 : ∃ ch ∈ (s.dropWhile isWS).reverse, isWS ch = false := by
    rcases h1 with ⟨ch, hch, hws⟩
    exact ⟨ch, List.mem_reverse.2 hch, hws⟩
  have h3 := exists_not_ws_dropWhile h2
  rcases h3 with ⟨ch, hch, hws⟩
  exact ⟨ch, List.mem_reverse.2 hch, hws⟩

/-- The ids assigned by `extract_clauses` are the positions of the enumerated
segments, and `build_clause_graph` does not touch them. -/
theorem extractClauses_ids (cls : Option (List Char → Except Unit String))
    (sp : List Char → List (List Char)) (text : List Char) :
    (extractClauses cls sp text).map (·.id)
      = List.range (extractClauses cls sp text).length := by
  simp only [extractClauses, buildClauseGraph, List.map_map, List.length_map,
    List.enum_length]
  exact List.enum_map_fst _

/-- C8 (counterexample).  The claim says every non-empty input yields a
non-empty clause sequence; but the single-space input (non-empty) is
whitespace-only, every span is discarded before the sentence splitter is even
consulted, and the result is empty. -/
theorem c8_counterexample :
    extractClauses none (fun s => [s]) [' '] = [] ∧ ([' '] : List Char) ≠ [] := by
  exact ⟨by decide, by decide⟩

/-- C8 (amended).  For every input, ids are contiguous from 0 in document
order; and under the assumption that the sentence splitter emits only
sentences containing a non-whitespace character, no clause text is empty or
whitespace-only.  A whitespace-only input yields the empty sequence, so
non-emptiness of the input does not imply non-emptiness of the output. -/
theorem c8_extraction_amended (cls : Option (List Char → Except Unit String))
    (sp : List Char → List (List Char)) (text : List Char)
    (hsp : ∀ seg s, s ∈ sp seg → ∃ ch ∈ s, isWS ch = false) :
    (extractClauses cls sp text).map (·.id)
      = List.range (extractClauses cls sp text).length
    ∧ ∀ c ∈ extractClauses cls sp text, ∃ ch ∈ c.text, isWS ch = false := by
  refine ⟨extractClauses_ids cls sp text, ?_⟩
  intro c hc
  obtain ⟨⟨seg, s, hs, htext⟩, _⟩ := mem_extractClauses_shape hc
  rw [htext]
  exact exists_not_ws_stripL (hsp seg s hs)

/-- C8 (witness): the splitter hypothesis of `c8_extraction_amended` holds for
the constant single-sentence splitter emitting `"x"`. -/
theorem c8_witness :
    (∀ seg s, s ∈ (fun _ : List Char => [[('x' : Char)]]) seg
      → ∃ ch ∈ s, isWS ch = false)
    ∧ ((extractClauses none (fun _ => [['x']]) "liability".toList).map (·.id)
        = List.range (extractClauses none (fun _ => [['x']]) "liability".toList).length
      ∧ ∀ c ∈ extractClauses none (fun _ => [['x']]) "liability".toList,
          ∃ ch ∈ c.text, isWS ch = false) := by
  have hsp : ∀ seg s, s ∈ (fun _ : List Char => [[('x' : Char)]]) seg
      → ∃ ch ∈ s, isWS ch = false := by
    intro seg s hs
    simp only [List.mem_singleton] at hs
    subst hs
    exact ⟨'x', by simp, by decide⟩
  exact ⟨hsp, c8_extraction_amended none (fun _ => [['x']]) "liability".toList hsp⟩

/-- The clause list `extract_clauses` produces from the input `"liability"`
with a single-sentence splitter: one clause, with placeholder risk written at
extraction time. -/
theorem extract_liability_eq :
    extractClauses none (fun s => [s]) "liability".toList = [cLiability] := by
  have hstrip : stripL liabilityChars = liabilityChars := by decide
  have htyp : determineClauseType none liabilityChars = "unknown" := by decide
  have href : findRefs liabilityChars = [] := by decide
  simp [extractClauses, segmentText, liabilityChars, buildClauseGraph, newRefs,
    chase_nil, List.enum, List.enumFrom, cLiability]
  norm_num [← liabilityChars.eq_def, hstrip, htyp, href, chase_nil]

/-- C9 (counterexample).  The claim says the risk score of every extracted
clause is at its unset/zero default, written only later by the Risk Scorer.
But `extract_clauses` itself writes the placeholder `calculate_risk_score`
value: on the input `"liability"` the extracted clause carries risk 0.3 ≠ 0
already at extraction time. -/
theorem c9_counterexample :
    (extractClauses none (fun s => [s]) "liability".toList).map (·.risk_score)
      = [3/10]
    ∧ ((3 : ℚ)/10) ≠ 0 := by
  constructor
  · rw [extract_liability_eq]
    have : calcRiskScoreExt liabilityChars = 3/10 := by
      simp +decide [calcRiskScoreExt, liabilityChars]
      norm_num
    simp [cLiability, this]
  · norm_num

/-- C9 (amended).  `extract_clauses` writes each clause's `risk_score` once,
with the extraction-time placeholder `calculate_risk_score` of its text, a
value in [0,1]; `score_clauses` never writes the field — it reports its own
computed per-clause scores separately in the report's `clause_risks`. -/
theorem c9_risk_written_at_extraction
    (cls : Option (List Char → Except Unit String))
    (sp : List Char → List (List Char)) (text : List Char) :
    (∀ c ∈ extractClauses cls sp text,
        c.risk_score = calcRiskScoreExt c.text
        ∧ 0 ≤ c.risk_score ∧ c.risk_score ≤ 1)
    ∧ (∀ (an : Option (List Char → Except Unit (String × ℚ)))
        (clauses : List ClauseL),
        (scoreClausesFixed an clauses).clause_risks
          = clauses.map (fun c => (c.id, calcClauseRiskFixed an c))) := by
  constructor
  · intro c hc
    obtain ⟨_, hrisk⟩ := mem_extractClauses_shape hc
    refine ⟨hrisk, ?_, ?_⟩
    · rw [hrisk]
      simp only [calcRiskScoreExt]
      refine le_min ?_ (by norm_num)
      split_ifs <;> norm_num
    · rw [hrisk]
      simp only [calcRiskScoreExt]
      exact min_le_right _ _
  · intro an clauses
    rfl

/-- C9 (witness): the membership hypothesis of
`c9_risk_written_at_extraction` holds at the clause extracted from
`"liability"`. -/
theorem c9_witness :
    cLiability ∈ extractClauses none (fun s => [s]) "liability".toList
    ∧ (cLiability.risk_score = calcRiskScoreExt cLiability.text
      ∧ 0 ≤ cLiability.risk_score ∧ cLiability.risk_score ≤ 1) := by
  have hm : cLiability ∈ extractClauses none (fun s => [s]) "liability".toList := by
    rw [extract_liability_eq]
    exact List.mem_singleton.2 rfl
  exact ⟨hm,
    (c9_risk_written_at_extraction none (fun s => [s]) "liability".toList).1
      cLiability hm⟩
